import Mathlib

/-!
Shallow embedding of the core of the `nx` IPC runtime, covering:
  * `src/mem.rs` — the `Shared<T>` reference-counted cell,
  * `src/ipc/server.rs` — `DomainTable`, `ServerHolder`, `ServerManager`
    (wait-handle preparation, request dispatch, MITM forwarding, holder removal),
  * `src/gpu/binder.rs` — the graphics status mapper and the binder client methods.

Machine integers are modelled as `Nat`/`Int` (no overflow is relevant to the
verified properties); fallible Rust functions returning `Result<T>` become
`Except RC T`.  External collaborators (kernel calls, the parcel codec, CMIF
byte encodings) are abstracted exactly where the source treats them as opaque;
each such definition carries a comment saying what it stands for.
-/

namespace Nx

/-- Result codes.  The project models a result as success or a 32-bit
module-qualified error code; only the identity of each named code matters to
the verified properties, so codes are an inductive type rather than raw
integers.  `other n` stands for any code not named here. -/
inductive RC where
  | shouldForwardToSession
  | invalidCommandRequestId
  | sessionClosed
  | domainNotFound
  | signaledServerNotFound
  | invalidDomainCommandType
  | invalidCommandType
  | objectIdAlreadyAllocated
  | alreadyDomain
  | notImplemented
  | unsupportedOperation
  | invalidProtocol
  | ecPermissionDenied
  | ecNameNotFound
  | ecWouldBlock
  | ecNoMemory
  | ecAlreadyExists
  | ecNoInit
  | ecBadValue
  | ecDeadObject
  | ecInvalidOperation
  | ecNotEnoughData
  | ecUnknownTransaction
  | ecBadIndex
  | ecTimeOut
  | ecFdsNotAllowed
  | ecFailedTransaction
  | ecBadType
  | ecInvalid
  | parcelNotEnoughData
  | parcelBadType
  | other (n : Nat)
deriving DecidableEq, Repr

instance exceptDecEq {ε α : Type} [DecidableEq ε] [DecidableEq α] :
    DecidableEq (Except ε α) := fun a b =>
  match a, b with
  | .ok x, .ok y =>
    if h : x = y then .isTrue (by rw [h]) else .isFalse (by simp [h])
  | .error x, .error y =>
    if h : x = y then .isTrue (by rw [h]) else .isFalse (by simp [h])
  | .ok _, .error _ => .isFalse (by simp)
  | .error _, .ok _ => .isFalse (by simp)

/-! ## `src/mem.rs`: the `Shared<T>` reference-counted cell

`ReferenceCount` holds a pointer to an `i64` counter, null when unset.  The
counter value is modelled as `Option Int` (`none` = null holder pointer,
`some c` = `*holder == c`).  The shared object pointer is always non-null
(`Box::into_raw` of a value), so `acquire`'s null-pointer guard is always
taken in the true branch. -/

/-- `ReferenceCount::use_count` (src/mem.rs:24): 0 when the holder pointer is
null, else the pointed-to value. -/
def referenceCountUseCount (holder : Option Int) : Int :=
  match holder with
  | none => 0
  | some c => c

/-- `ReferenceCount::acquire` (src/mem.rs:33) for a non-null object pointer:
allocate the counter at 1 when the holder is null, else increment it. -/
def referenceCountAcquire (holder : Option Int) : Option Int :=
  match holder with
  | none => some 1
  | some c => some (c + 1)

/-- `ReferenceCount::release` (src/mem.rs:47): decrement; when the counter
reaches 0, free both the object and the counter (the returned `Bool` records
that exactly this one free of both happened) and null the holder. -/
def referenceCountRelease (holder : Option Int) : Option Int × Bool :=
  match holder with
  | none => (none, false)
  | some c =>
    if c - 1 = 0 then (none, true)
    else (some (c - 1), false)

/-- States of one `Shared` allocation reachable through the cell operations of
`src/mem.rs`: `SharedReach cells holder frees` holds when, starting from
`Shared::new` (one cell), some sequence of `clone`/`copy`/`to` (each calls
`acquire` on the shared counter, src/mem.rs:92-112,123-127) and `drop` (calls
`release`, src/mem.rs:117-121) leaves `cells` live cells, counter state
`holder`, and `frees` object+counter frees performed. -/
inductive SharedReach : Nat → Option Int → Nat → Prop where
  | new : SharedReach 1 (referenceCountAcquire none) 0
  | clone (n : Nat) (h : Option Int) (f : Nat) :
      SharedReach (n + 1) h f → SharedReach (n + 2) (referenceCountAcquire h) f
  | drop (n : Nat) (h : Option Int) (f : Nat) :
      SharedReach (n + 1) h f →
      SharedReach n (referenceCountRelease h).1
        (f + (if (referenceCountRelease h).2 then 1 else 0))

/-! ## `src/ipc/server.rs`: domain tables and server holders -/

/-- One entry of a command metadata table
(`CommandMetadata { rq_id, version_interval, command_fn }`).  The adapter
function itself is abstracted away (dispatch supplies it as an oracle); the
version-interval check of `CommandMetadata::matches` is abstracted to its
boolean outcome `ver_ok` (the spec: intervals are inclusive, outside-range
entries are invisible). -/
structure CommandMetadataM where
  rq_id : Nat
  ver_ok : Bool
deriving DecidableEq, Repr

/-- `CommandMetadata::matches(rq_id)`: the id matches and the version filter
admits the entry. -/
def CommandMetadataM.matchesRq (c : CommandMetadataM) (rq : Nat) : Bool :=
  c.ver_ok && c.rq_id == rq

/-- Modelled from the spec: `ObjectInfo` (the `ipc` module root is not part of
the four source files).  §3 of the spec: `{handle, domain_object_id,
owns_handle, protocol}`; the protocol field is irrelevant to the claims
settled here. -/
structure ObjectInfoM where
  handle : Nat
  domain_object_id : Nat
  owns_handle : Bool
deriving DecidableEq, Repr

/-- Modelled from the spec: a session is in domain mode iff
`domain_object_id != 0` (§3 of the spec). -/
def ObjectInfoM.isDomain (i : ObjectInfoM) : Bool :=
  i.domain_object_id != 0

/-- Modelled from the spec: `ObjectInfo::new()` — all-zero, non-owning. -/
def ObjectInfoM.new : ObjectInfoM := ⟨0, 0, false⟩

/-- Modelled from the spec: `ObjectInfo::from_handle(handle)` — a plain
session object that owns its kernel handle, no domain id. -/
def ObjectInfoM.from_handle (h : Nat) : ObjectInfoM := ⟨h, 0, true⟩

/-- Modelled from the spec: `ObjectInfo::from_domain_object_id(handle, id)` —
a domain child object; it does not own the kernel handle (at most one object
per session owns it, §3). -/
def ObjectInfoM.from_domain_object_id (h id : Nat) : ObjectInfoM := ⟨h, id, false⟩

inductive WaitHandleTypeM where
  | server
  | session
deriving DecidableEq, Repr

/-- `ServerHolder` (src/ipc/server.rs:217-227).  The shared session object is
abstracted to its command metadata table (`server = some tbl` iff the Rust
field is `Some`, and the object's `get_command_metadata_table()` returns
`tbl`); the factory functions `new_server_fn`/`new_mitm_server_fn` are
abstracted the same way (`some tbl` = a factory producing objects whose
metadata table is `tbl`, which is fixed by the factory's type parameter).
The optional per-holder `domain_table` is threaded separately through the
dispatch functions below, exactly as `handle_request_command` receives it,
to keep the structure non-recursive. -/
structure ServerHolderM where
  server : Option (List CommandMetadataM)
  info : ObjectInfoM
  new_server_fn : Option (List CommandMetadataM)
  new_mitm_server_fn : Option (List CommandMetadataM)
  handle_type : WaitHandleTypeM
  mitm_forward_info : ObjectInfoM
  is_mitm_service : Bool
  service_name : Nat
deriving DecidableEq, Repr

/-- `DomainTable` (src/ipc/server.rs:170-173): a list of allocated ids plus
the `ServerHolder` children bound to them. -/
structure DomainTableM where
  table : List Nat
  domains : List ServerHolderM
deriving DecidableEq, Repr

/-- `DomainTable::new` (src/ipc/server.rs:176-178). -/
def DomainTableM.new : DomainTableM := ⟨[], []⟩

/-- The id-search loop of `DomainTable::allocate_id`
(src/ipc/server.rs:180-190), with explicit fuel standing for the unbounded
Rust loop; `allocate_id` supplies fuel `table.length + 1`, which is proved
sufficient below. -/
def firstFreeId (table : List Nat) : Nat → Nat → Nat
  | _, 0 => 0
  | current, fuel + 1 =>
    if table.contains current then firstFreeId table (current + 1) fuel
    else current

/-- `DomainTable::allocate_id` (src/ipc/server.rs:180-190): push and return
the smallest positive id not in the table.  The Rust signature is
`Result<DomainObjectId>` but the loop never returns an error, so the model
returns the pair directly. -/
def DomainTableM.allocate_id (t : DomainTableM) : Nat × DomainTableM :=
  let id := firstFreeId t.table 1 (t.table.length + 1)
  (id, { t with table := t.table ++ [id] })

/-- `DomainTable::allocate_specific_id` (src/ipc/server.rs:192-199). -/
def DomainTableM.allocate_specific_id (t : DomainTableM) (id : Nat) :
    Except RC (Nat × DomainTableM) :=
  if t.table.contains id then .error .objectIdAlreadyAllocated
  else .ok (id, { t with table := t.table ++ [id] })

/-- `DomainTable::find_domain` (src/ipc/server.rs:201-209): first child with
the given id; its `server` object (abstracted to its metadata table) or
`DomainNotFound`. -/
def DomainTableM.find_domain (t : DomainTableM) (id : Nat) :
    Except RC (List CommandMetadataM) :=
  match t.domains.find? (fun h => h.info.domain_object_id == id) with
  | some h =>
    match h.server with
    | some tbl => .ok tbl
    | none => .error .domainNotFound
  | none => .error .domainNotFound

/-- `DomainTable::deallocate_domain` (src/ipc/server.rs:211-214): retain all
ids and children whose id differs. -/
def DomainTableM.deallocate_domain (t : DomainTableM) (id : Nat) : DomainTableM :=
  { table := t.table.filter (fun x => x != id),
    domains := t.domains.filter (fun h => h.info.domain_object_id != id) }

/-! ### `ServerHolder` constructors and factory use (src/ipc/server.rs:229-297) -/

/-- `ServerHolder::new_session` (src/ipc/server.rs:230-232). -/
def ServerHolderM.new_session (handle : Nat) (object : List CommandMetadataM) :
    ServerHolderM :=
  { server := some object, info := .from_handle handle, new_server_fn := none,
    new_mitm_server_fn := none, handle_type := .session,
    mitm_forward_info := .new, is_mitm_service := false, service_name := 0 }

/-- `ServerHolder::new_domain_session` (src/ipc/server.rs:234-236). -/
def ServerHolderM.new_domain_session (handle domain_object_id : Nat)
    (object : List CommandMetadataM) : ServerHolderM :=
  { server := some object, info := .from_domain_object_id handle domain_object_id,
    new_server_fn := none, new_mitm_server_fn := none, handle_type := .session,
    mitm_forward_info := .new, is_mitm_service := false, service_name := 0 }

/-- `ServerHolder::new_server::<S>` (src/ipc/server.rs:238-240); the captured
factory is abstracted to the metadata table of the objects it produces. -/
def ServerHolderM.new_server (handle : Nat) (service_name : Nat)
    (factory : List CommandMetadataM) : ServerHolderM :=
  { server := none, info := .from_handle handle, new_server_fn := some factory,
    new_mitm_server_fn := none, handle_type := .server,
    mitm_forward_info := .new, is_mitm_service := false, service_name }

/-- `ServerHolder::new_mitm_server::<S>` (src/ipc/server.rs:242-244). -/
def ServerHolderM.new_mitm_server (handle : Nat) (service_name : Nat)
    (factory : List CommandMetadataM) : ServerHolderM :=
  { server := none, info := .from_handle handle, new_server_fn := none,
    new_mitm_server_fn := some factory, handle_type := .server,
    mitm_forward_info := .new, is_mitm_service := true, service_name }

/-- `ServerHolder::get_new_server_fn` (src/ipc/server.rs:264-269): the stored
factory, or the `SessionClosed` result when none was captured. -/
def ServerHolderM.get_new_server_fn (h : ServerHolderM) :
    Except RC (List CommandMetadataM) :=
  match h.new_server_fn with
  | some f => .ok f
  | none => .error .sessionClosed

/-- `ServerHolder::get_new_mitm_server_fn` (src/ipc/server.rs:271-276). -/
def ServerHolderM.get_new_mitm_server_fn (h : ServerHolderM) :
    Except RC (List CommandMetadataM) :=
  match h.new_mitm_server_fn with
  | some f => .ok f
  | none => .error .sessionClosed

/-- `ServerHolder::make_new_session` (src/ipc/server.rs:246-249). -/
def ServerHolderM.make_new_session (h : ServerHolderM) (handle : Nat) :
    Except RC ServerHolderM :=
  match h.get_new_server_fn with
  | .error rc => .error rc
  | .ok new_fn =>
    .ok { server := some new_fn, info := .from_handle handle,
          new_server_fn := h.new_server_fn,
          new_mitm_server_fn := h.new_mitm_server_fn, handle_type := .session,
          mitm_forward_info := .new, is_mitm_service := h.is_mitm_service,
          service_name := 0 }

/-- `ServerHolder::make_new_mitm_session` (src/ipc/server.rs:251-254); the
`MitmProcessInfo` argument only feeds the factory and is dropped by the
abstraction. -/
def ServerHolderM.make_new_mitm_session (h : ServerHolderM)
    (handle forward_handle : Nat) : Except RC ServerHolderM :=
  match h.get_new_mitm_server_fn with
  | .error rc => .error rc
  | .ok new_mitm_fn =>
    .ok { server := some new_mitm_fn, info := .from_handle handle,
          new_server_fn := h.new_server_fn,
          new_mitm_server_fn := h.new_mitm_server_fn, handle_type := .session,
          mitm_forward_info := .from_handle forward_handle,
          is_mitm_service := h.is_mitm_service, service_name := 0 }

/-- `ServerHolder::convert_to_domain` (src/ipc/server.rs:278-297).  The result
pair is (updated holder, the freshly created domain table); `upstream` is the
outcome of the forwarded `convert_current_object_to_domain` on the MITM
forward session (an external IPC call). -/
def ServerHolderM.convert_to_domain (h : ServerHolderM)
    (upstream : Except RC Nat) : Except RC (ServerHolderM × DomainTableM) :=
  if h.info.isDomain then .error .alreadyDomain
  else
    let dom_table := DomainTableM.new
    match (if h.is_mitm_service then
             match upstream with
             | .error rc => .error rc
             | .ok forward_object_id =>
               match dom_table.allocate_specific_id forward_object_id with
               | .error rc => .error rc
               | .ok r => .ok (r, some forward_object_id)
           else .ok (dom_table.allocate_id, none) :
           Except RC ((Nat × DomainTableM) × Option Nat)) with
    | .error rc => .error rc
    | .ok ((domain_object_id, dt2), fwd_id) =>
      .ok ({ h with
               info := { h.info with domain_object_id := domain_object_id },
               mitm_forward_info :=
                 match fwd_id with
                 | some fid => { h.mitm_forward_info with domain_object_id := fid }
                 | none => h.mitm_forward_info },
            dt2)

/-! ### `ServerManager` (src/ipc/server.rs:443-802) -/

/-- Modelled from the spec: `wait::MAX_OBJECT_COUNT` (the `wait` module is not
among the source files); §4.8 of the spec: "capped at `MAX_OBJECT_COUNT`,
typically 64". -/
def MAX_OBJECT_COUNT : Nat := 64

/-- `ServerManager` state; the fixed `wait_handles` array and the pointer
buffer are only consumed by the kernel-facing code and are modelled at their
use sites. -/
structure ServerManagerM where
  server_holders : List ServerHolderM
deriving DecidableEq, Repr

/-- `ServerManager::new` (src/ipc/server.rs:450-452) with an empty holder
list. -/
def ServerManagerM.newManager : ServerManagerM := ⟨[]⟩

/-- The walk of `ServerManager::prepare_wait_handles`
(src/ipc/server.rs:455-466): each holder with a nonzero handle is stored at
`wait_handles[handles_index]`.  The backing array has `MAX_OBJECT_COUNT`
entries, so a store at `handles_index ≥ MAX_OBJECT_COUNT` is an out-of-bounds
panic, modelled as `none`. -/
def prepareWaitHandlesGo : List ServerHolderM → Nat → List Nat → Option (List Nat)
  | [], _, acc => some acc
  | sh :: rest, handles_index, acc =>
    if sh.info.handle != 0 then
      if handles_index < MAX_OBJECT_COUNT then
        prepareWaitHandlesGo rest (handles_index + 1) (acc ++ [sh.info.handle])
      else none
    else prepareWaitHandlesGo rest handles_index acc

/-- `ServerManager::prepare_wait_handles` (src/ipc/server.rs:455-466):
`some ws` is the prefix of `wait_handles` handed to the kernel wait;
`none` is the out-of-bounds panic on overflow. -/
def ServerManagerM.prepare_wait_handles (m : ServerManagerM) : Option (List Nat) :=
  prepareWaitHandlesGo m.server_holders 0 []

/-- `ServerManager::register_server::<S>` (src/ipc/server.rs:731-733): push a
fresh server holder.  The Rust function returns `()`: it has no error
channel and performs no capacity check. -/
def ServerManagerM.register_server (m : ServerManagerM) (handle service_name : Nat)
    (factory : List CommandMetadataM) : ServerManagerM :=
  { server_holders :=
      m.server_holders ++ [ServerHolderM.new_server handle service_name factory] }

/-- `n` successive `register_server` calls on a manager (each one is the
plain `Vec::push` of src/ipc/server.rs:732 — no capacity check exists and
no error can be reported). -/
def registerMany : Nat → ServerManagerM → ServerManagerM
  | 0, m => m
  | n + 1, m => registerMany n (m.register_server 1 0 [])

/-- The holder scan and removal of `ServerManager::process_signaled_handle`
for the case in which the kernel's `reply_and_receive` on the signaled session
handle reports `SessionClosed` (src/ipc/server.rs:605-629, 719-721): the scan
stops at the first holder whose `info.handle` matches; when it is a session
holder, `should_close_session` is set and that exact index is removed
(`Vec::remove`), and nothing else changes. -/
def processSessionClosed : List ServerHolderM → Nat → List ServerHolderM
  | [], _ => []
  | sh :: rest, handle =>
    if sh.info.handle == handle then
      (if sh.handle_type == WaitHandleTypeM.session then rest else sh :: rest)
    else sh :: processSessionClosed rest handle

/-! ### Request dispatch (src/ipc/server.rs:469-552)

The kernel-facing effects of `handle_request_command` are made explicit:
the thread-local message buffer is a byte list, and the externally visible
actions (issuing `send_sync_request`, writing a CMIF response onto the
message buffer) are recorded as events.  The per-command adapter
(`call_self_server_command`) and the kernel's `send_sync_request` are
oracles supplied as function arguments: the source treats both as opaque
calls whose outcome it branches on. -/

/-- Externally visible actions of request dispatch. `syncRequest h visible`
records that `send_sync_request(h)` was issued while the message buffer held
`visible`; `wroteResponse rc` records a CMIF error-response write carrying
`rc`. -/
inductive Ev where
  | syncRequest (handle : Nat) (visible : List Nat)
  | wroteResponse (rc : RC)
deriving DecidableEq, Repr

/-- Message-buffer contents plus the trace of externally visible actions. -/
structure DispatchSt where
  msgBuf : List Nat
  events : List Ev
deriving DecidableEq, Repr

/-- An abstract code for each result, used only to give the modelled CMIF
error response concrete bytes. -/
def RC.code : RC → Nat
  | .other n => 1000 + n
  | .shouldForwardToSession => 1
  | .invalidCommandRequestId => 2
  | .sessionClosed => 3
  | .domainNotFound => 4
  | .signaledServerNotFound => 5
  | .invalidDomainCommandType => 6
  | .invalidCommandType => 7
  | .objectIdAlreadyAllocated => 8
  | .alreadyDomain => 9
  | .notImplemented => 10
  | .unsupportedOperation => 11
  | .invalidProtocol => 12
  | _ => 999

/-- Modelled from the spec: `cmif::server::write_request_command_response_on_msg_buffer`
(the `cmif` module is not among the source files) — §7 of the spec: failures
from handler adapters are converted into CMIF error responses on the message
buffer.  The byte encoding is abstracted to a tagged cell carrying the
result's code; the event trace records the result itself. -/
def writeRequestResponse (rc : RC) (st : DispatchSt) : DispatchSt :=
  { msgBuf := [RC.code rc], events := st.events ++ [Ev.wroteResponse rc] }

/-- The `send_to_forward_handle` closure of `handle_request_command`
(src/ipc/server.rs:477-484 and its two call sites): restore the backed-up
message buffer, then `send_sync_request` on the MITM forward handle.  On
success the upstream's reply is already in the message buffer (`sendReplyBuf`);
on failure the caller writes a CMIF error response
(src/ipc/server.rs:503-505, 515-517). -/
def sendToForwardHandle (fwd : Nat) (backup : List Nat)
    (sendRes : Nat → Except RC Unit) (sendReplyBuf : List Nat)
    (st : DispatchSt) : DispatchSt :=
  let restored : DispatchSt :=
    { msgBuf := backup, events := st.events ++ [Ev.syncRequest fwd backup] }
  match sendRes fwd with
  | .ok _ => { restored with msgBuf := sendReplyBuf }
  | .error rc => writeRequestResponse rc restored

/-- The adapter oracle: `target_server.get().call_self_server_command`
applied at a request id and the current message buffer, returning the
command's result and the buffer it leaves behind (on success the adapter has
written the response itself, src/ipc/server.rs:493). -/
def AdapterFn := Nat → List Nat → Except RC Unit × List Nat

/-- Target-object resolution inside `do_handle_request`
(src/ipc/server.rs:486-492): domain requests addressed to the base object or
plain sessions use the holder's own `server`; non-base domain requests go
through `find_domain`. -/
def resolveTarget (sh : ServerHolderM) (info : ObjectInfoM)
    (domain_table : Option DomainTableM) : Except RC (List CommandMetadataM) :=
  if info.isDomain then
    if info.owns_handle then
      match sh.server with
      | some tbl => .ok tbl
      | none => .error .signaledServerNotFound
    else
      match domain_table with
      | none => .error .domainNotFound
      | some dt => dt.find_domain info.domain_object_id
  else
    match sh.server with
    | some tbl => .ok tbl
    | none => .error .signaledServerNotFound

/-- The command-table loop of `do_handle_request` (src/ipc/server.rs:494-512):
every matching entry's adapter runs; an adapter failure that matches
`ShouldForwardToSession` on a MITM holder triggers the forward path, any
other failure is written as a CMIF error response.  Returns the
`command_found` flag and the final state. -/
def runCommands (adapter : AdapterFn) (is_mitm : Bool) (fwd : Nat)
    (backup : List Nat) (sendRes : Nat → Except RC Unit)
    (sendReplyBuf : List Nat) (rqId : Nat) :
    List CommandMetadataM → DispatchSt → Bool × DispatchSt
  | [], st => (false, st)
  | c :: rest, st =>
    if c.matchesRq rqId then
      let run := adapter rqId st.msgBuf
      let afterAdapter : DispatchSt := { st with msgBuf := run.2 }
      let st2 :=
        match run.1 with
        | .ok _ => afterAdapter
        | .error rc =>
          if is_mitm && (rc == RC.shouldForwardToSession) then
            sendToForwardHandle fwd backup sendRes sendReplyBuf afterAdapter
          else writeRequestResponse rc afterAdapter
      let rec1 := runCommands adapter is_mitm fwd backup sendRes sendReplyBuf rqId rest st2
      (true, rec1.2)
    else runCommands adapter is_mitm fwd backup sendRes sendReplyBuf rqId rest st

/-- The tail of `do_handle_request` after the command-table loop
(src/ipc/server.rs:494-522): when some command matched, the state the loop
produced stands; when none matched, a MITM holder forwards and any other
holder answers `InvalidCommandRequestId`. -/
def doHandleRequestRun (sh : ServerHolderM) (command_table : List CommandMetadataM)
    (rqId : Nat) (ipc_buf_backup : List Nat) (adapter : AdapterFn)
    (sendRes : Nat → Except RC Unit) (sendReplyBuf : List Nat)
    (st : DispatchSt) : Except RC DispatchSt :=
  let run := runCommands adapter sh.is_mitm_service
    sh.mitm_forward_info.handle ipc_buf_backup sendRes sendReplyBuf rqId
    command_table st
  if run.1 then .ok run.2
  else if sh.is_mitm_service then
    .ok (sendToForwardHandle sh.mitm_forward_info.handle ipc_buf_backup
      sendRes sendReplyBuf run.2)
  else .ok (writeRequestResponse RC.invalidCommandRequestId run.2)

/-- The per-holder body of `do_handle_request` (src/ipc/server.rs:486-522):
resolve the target object and run the matching commands against it. -/
def doHandleRequestCore (sh : ServerHolderM) (info : ObjectInfoM)
    (domain_table : Option DomainTableM) (rqId : Nat)
    (ipc_buf_backup : List Nat) (adapter : AdapterFn)
    (sendRes : Nat → Except RC Unit) (sendReplyBuf : List Nat)
    (st : DispatchSt) : Except RC DispatchSt :=
  match resolveTarget sh info domain_table with
  | .error rc => .error rc
  | .ok command_table =>
    doHandleRequestRun sh command_table rqId ipc_buf_backup adapter sendRes
      sendReplyBuf st

/-- The `do_handle_request` closure of `handle_request_command`
(src/ipc/server.rs:472-530): find the first holder whose handle matches the
addressed object (the Rust `for` with `break`), then dispatch on it.
Child sessions created by adapters (`new_sessions`) are internal to the
adapter oracle and outside the properties settled here. -/
def doHandleRequest (holders : List ServerHolderM) (info : ObjectInfoM)
    (domain_table : Option DomainTableM) (rqId : Nat)
    (ipc_buf_backup : List Nat) (adapter : AdapterFn)
    (sendRes : Nat → Except RC Unit) (sendReplyBuf : List Nat)
    (st : DispatchSt) : Except RC DispatchSt :=
  match holders.find? (fun sh => sh.info.handle == info.handle) with
  | none => .ok st
  | some sh =>
    doHandleRequestCore sh info domain_table rqId ipc_buf_backup adapter
      sendRes sendReplyBuf st

/-- `cmif::DomainCommandType` as read from the inbound domain header. -/
inductive DomainCommandTypeM where
  | invalid
  | sendMessage
  | close
deriving DecidableEq, Repr

/-- `ServerManager::handle_request_command` (src/ipc/server.rs:469-552).
Besides the dispatch state, the (possibly updated) domain table is returned:
the domain `Close` branch mutates it through the shared cell.  `Close` on an
object that owns the handle falls into the empty `TODO: Abort? Error?` arm
(src/ipc/server.rs:546) and changes nothing. -/
def handle_request_command (holders : List ServerHolderM) (info : ObjectInfoM)
    (domain_table : Option DomainTableM) (rqId : Nat)
    (domain_command_type : DomainCommandTypeM) (ipc_buf_backup : List Nat)
    (adapter : AdapterFn) (sendRes : Nat → Except RC Unit)
    (sendReplyBuf : List Nat) (st : DispatchSt) :
    Except RC (DispatchSt × Option DomainTableM) :=
  match domain_command_type with
  | .invalid =>
    if info.isDomain then .error .invalidDomainCommandType
    else
      match doHandleRequest holders info domain_table rqId ipc_buf_backup
          adapter sendRes sendReplyBuf st with
      | .error rc => .error rc
      | .ok st2 => .ok (st2, domain_table)
  | .sendMessage =>
    match doHandleRequest holders info domain_table rqId ipc_buf_backup
        adapter sendRes sendReplyBuf st with
    | .error rc => .error rc
    | .ok st2 => .ok (st2, domain_table)
  | .close =>
    if !info.owns_handle then
      match domain_table with
      | none => .error .domainNotFound
      | some dt => .ok (st, some (dt.deallocate_domain info.domain_object_id))
    else .ok (st, domain_table)

/-- The 256-byte message-buffer snapshot taken by `process_signaled_handle`
right after receiving, before any decoding (src/ipc/server.rs:602, 631):
`ipc_buf_backup` is a copy of the first 0x100 bytes of the kernel message
buffer. -/
def snapshotMsgBuffer (delivered : List Nat) : List Nat :=
  delivered.take 256

/-- The trace that the forward path appends: one `send_sync_request` with the
restored bytes visible, then, only if the kernel call failed, one error
response. -/
def forwardEvents (fwd : Nat) (visible : List Nat)
    (sendRes : Nat → Except RC Unit) : List Ev :=
  Ev.syncRequest fwd visible ::
    (match sendRes fwd with
     | .ok _ => []
     | .error rc => [Ev.wroteResponse rc])

/-! ### Reachable domain tables -/

/-- The domain branch of `before_response_write` for an outbound session
object (src/ipc/server.rs:119-127): allocate a fresh id on the holder's
domain table and push a `new_domain_session` child (handle 0) bound to it. -/
def pushDomainObject (t : DomainTableM) (object : List CommandMetadataM) :
    Nat × DomainTableM :=
  let r := t.allocate_id
  (r.1,
   { r.2 with
       domains := r.2.domains ++ [ServerHolderM.new_domain_session 0 r.1 object] })

/-- `DomainTableReach b t`: the domain table `t`, belonging to a base domain
holder whose `info.domain_object_id` is `b`, is producible by the operations
that mutate a domain table:
  * its creation inside `convert_to_domain` (src/ipc/server.rs:278-297),
    which allocates the base object's id (upstream-forced for MITM) but pushes
    no child holder;
  * the outbound-session-object path of `before_response_write`
    (src/ipc/server.rs:119-127);
  * the domain `Close` branch of `handle_request_command`
    (src/ipc/server.rs:541-544), which runs only when
    `!ctx.object_info.owns_handle`; `owns_handle` is set to
    `session_domain_base_id == domain_object_id` (src/ipc/server.rs:643), so
    the deallocated id differs from the base id `b`. -/
inductive DomainTableReach : Nat → DomainTableM → Prop where
  | convert (h : ServerHolderM) (upstream : Except RC Nat) (h2 : ServerHolderM)
      (t : DomainTableM) (hc : h.convert_to_domain upstream = .ok (h2, t)) :
      DomainTableReach h2.info.domain_object_id t
  | alloc_child (b : Nat) (t : DomainTableM) (object : List CommandMetadataM) :
      DomainTableReach b t → DomainTableReach b (pushDomainObject t object).2
  | close_dealloc (b id : Nat) (t : DomainTableM) (hne : id ≠ b) :
      DomainTableReach b t → DomainTableReach b (t.deallocate_domain id)

/-! ## `src/gpu/binder.rs`: graphics status mapper and binder client -/

/-- The raw `i32` values of the named `ErrorCode` variants
(src/gpu/binder.rs:11-32), `Success = 0` included. -/
def nvListedCodes : List Int :=
  [0, -1, -2, -11, -12, -17, -19, -22, -32, -38, -61, -74, -75, -110,
   -2147483641, -2147483646, -2147483647]

/-- `convert_nv_error_code` (src/gpu/binder.rs:35-56).  The Rust argument is
the `#[repr(i32)]` enum `ErrorCode`, which reaches this function by a raw
parcel read of an `i32`; the match's wildcard arm (guarded by
`#[allow(unreachable_patterns)]`) exists precisely to map raw values outside
the named variants, so the model takes the raw `i32`. -/
def convert_nv_error_code (err : Int) : Except RC Unit :=
  if err = 0 then .ok ()
  else if err = -1 then .error .ecPermissionDenied
  else if err = -2 then .error .ecNameNotFound
  else if err = -11 then .error .ecWouldBlock
  else if err = -12 then .error .ecNoMemory
  else if err = -17 then .error .ecAlreadyExists
  else if err = -19 then .error .ecNoInit
  else if err = -22 then .error .ecBadValue
  else if err = -32 then .error .ecDeadObject
  else if err = -38 then .error .ecInvalidOperation
  else if err = -61 then .error .ecNotEnoughData
  else if err = -74 then .error .ecUnknownTransaction
  else if err = -75 then .error .ecBadIndex
  else if err = -110 then .error .ecTimeOut
  else if err = -2147483641 then .error .ecFdsNotAllowed
  else if err = -2147483646 then .error .ecFailedTransaction
  else if err = -2147483647 then .error .ecBadType
  else .error .ecInvalid

/-- Modelled from the spec: one value slot of a parcel (`src/gpu/parcel.rs` is
not among the source files).  §4.2 of the spec: scalar reads advance a
4-byte-aligned cursor; `read_sized` consumes a size-prefixed padded object.
A response parcel is abstracted to the sequence of slots its reads consume:
`word` for a plain scalar/POD read, `obj` for a `read_sized` object. -/
inductive PVal where
  | word (n : Int)
  | obj (id : Nat)
deriving DecidableEq, Repr

/-- Modelled from the spec: `Parcel::read::<T>` for scalar/POD `T` — pop the
next `word` slot; fails with `NotEnoughData` when the data is exhausted
(§4.2), with `BadType` on a slot of the wrong shape. -/
def parcelRead : List PVal → Except RC (Int × List PVal)
  | .word n :: rest => .ok (n, rest)
  | .obj _ :: _ => .error .parcelBadType
  | [] => .error .parcelNotEnoughData

/-- Modelled from the spec: `Parcel::read_sized::<T>` — pop the next `obj`
slot. -/
def parcelReadSized : List PVal → Except RC (Nat × List PVal)
  | .obj id :: rest => .ok (id, rest)
  | .word _ :: _ => .error .parcelBadType
  | [] => .error .parcelNotEnoughData

/-- `Binder::transact_parcel_check_err` (src/gpu/binder.rs:72-76): read the
trailing 32-bit signed status from the response parcel and map it through
`convert_nv_error_code`. -/
def transact_parcel_check_err (resp : List PVal) : Except RC (List PVal) :=
  match parcelRead resp with
  | .error rc => .error rc
  | .ok (err, rest) =>
    match convert_nv_error_code err with
    | .error rc => .error rc
    | .ok _ => .ok rest

/-! The response side of each binder method: the request parcel is framed
(interface token plus method inputs, never fallible for the written scalar
types) and handed to `transact_parcel`; `transactRes` is that call's outcome
— the driver's response parcel or a transport error
(src/gpu/binder.rs:78-90).  Each method below mirrors its Rust body's reads
from the response parcel. -/

/-- `Binder::connect` (src/gpu/binder.rs:110-124): read a
`QueueBufferOutput`, then check the trailing status. -/
def Binder.connect (transactRes : Except RC (List PVal)) : Except RC Int :=
  match transactRes with
  | .error rc => .error rc
  | .ok resp =>
    match parcelRead resp with
    | .error rc => .error rc
    | .ok (qbo, r1) =>
      match transact_parcel_check_err r1 with
      | .error rc => .error rc
      | .ok _ => .ok qbo

/-- `Binder::disconnect` (src/gpu/binder.rs:126-137): no outputs; check the
trailing status. -/
def Binder.disconnect (transactRes : Except RC (List PVal)) : Except RC Unit :=
  match transactRes with
  | .error rc => .error rc
  | .ok resp =>
    match transact_parcel_check_err resp with
    | .error rc => .error rc
    | .ok _ => .ok ()

/-- `Binder::set_preallocated_buffer` (src/gpu/binder.rs:139-152): transacts
and returns `Ok(())` without reading anything from the response parcel — in
particular without calling `transact_parcel_check_err`. -/
def Binder.set_preallocated_buffer (transactRes : Except RC (List PVal)) :
    Except RC Unit :=
  match transactRes with
  | .error rc => .error rc
  | .ok _ => .ok ()

/-- `Binder::request_buffer` (src/gpu/binder.rs:154-170): read the has-value
flag, conditionally `read_sized` the buffer, then check the trailing
status. -/
def Binder.request_buffer (transactRes : Except RC (List PVal)) :
    Except RC (Bool × Nat) :=
  match transactRes with
  | .error rc => .error rc
  | .ok resp =>
    match parcelRead resp with
    | .error rc => .error rc
    | .ok (non_null_v, r1) =>
      let non_null := non_null_v != 0
      if non_null then
        match parcelReadSized r1 with
        | .error rc => .error rc
        | .ok (gfx_buf, r2) =>
          match transact_parcel_check_err r2 with
          | .error rc => .error rc
          | .ok _ => .ok (non_null, gfx_buf)
      else
        match transact_parcel_check_err r1 with
        | .error rc => .error rc
        | .ok _ => .ok (non_null, 0)

/-- `Binder::dequeue_buffer` (src/gpu/binder.rs:172-194): read the slot and
the has-fences flag, conditionally `read_sized` the fences, then check the
trailing status. -/
def Binder.dequeue_buffer (transactRes : Except RC (List PVal)) :
    Except RC (Int × Bool × Nat) :=
  match transactRes with
  | .error rc => .error rc
  | .ok resp =>
    match parcelRead resp with
    | .error rc => .error rc
    | .ok (slot, r1) =>
      match parcelRead r1 with
      | .error rc => .error rc
      | .ok (has_fences_v, r2) =>
        let has_fences := has_fences_v != 0
        if has_fences then
          match parcelReadSized r2 with
          | .error rc => .error rc
          | .ok (fences, r3) =>
            match transact_parcel_check_err r3 with
            | .error rc => .error rc
            | .ok _ => .ok (slot, has_fences, fences)
        else
          match transact_parcel_check_err r2 with
          | .error rc => .error rc
          | .ok _ => .ok (slot, has_fences, 0)

/-- `Binder::queue_buffer` (src/gpu/binder.rs:196-209): read the
`QueueBufferOutput`, then check the trailing status. -/
def Binder.queue_buffer (transactRes : Except RC (List PVal)) : Except RC Int :=
  match transactRes with
  | .error rc => .error rc
  | .ok resp =>
    match parcelRead resp with
    | .error rc => .error rc
    | .ok (qbo, r1) =>
      match transact_parcel_check_err r1 with
      | .error rc => .error rc
      | .ok _ => .ok qbo

/-! # Theorems -/

lemma list_contains_eq (l : List Nat) (a : Nat) : l.contains a = decide (a ∈ l) := by
  simp [List.contains, List.elem_eq_mem]

/-- The id-search loop visits ids upward from `current`; given enough fuel to
reach a free id, it returns the least free id at or above `current`. -/
lemma firstFreeId_spec (table : List Nat) :
    ∀ fuel current, (∃ k, current ≤ k ∧ k < current + fuel ∧ k ∉ table) →
      (firstFreeId table current fuel ∉ table ∧
       current ≤ firstFreeId table current fuel ∧
       ∀ j, current ≤ j → j < firstFreeId table current fuel → j ∈ table) := by
  intro fuel
  induction fuel with
  | zero =>
    intro current hex
    obtain ⟨k, hk1, hk2, _⟩ := hex
    omega
  | succ f ih =>
    intro current hex
    have hstep : firstFreeId table current (f + 1)
        = if table.contains current then firstFreeId table (current + 1) f
          else current := rfl
    by_cases hc : current ∈ table
    · have hcb : table.contains current = true := by
        rw [list_contains_eq]; exact decide_eq_true hc
      have heq : firstFreeId table current (f + 1)
          = firstFreeId table (current + 1) f := by
        rw [hstep, hcb]; rfl
      obtain ⟨k, hk1, hk2, hk3⟩ := hex
      have hkne : k ≠ current := fun he => hk3 (he ▸ hc)
      have h2 := ih (current + 1) ⟨k, by omega, by omega, hk3⟩
      rw [heq]
      refine ⟨h2.1, by omega, ?_⟩
      intro j hj1 hj2
      rcases Nat.eq_or_lt_of_le hj1 with he | hlt
      · exact he ▸ hc
      · exact h2.2.2 j hlt hj2
    · have hcb : table.contains current = false := by
        rw [list_contains_eq]; exact decide_eq_false hc
      have heq : firstFreeId table current (f + 1) = current := by
        rw [hstep, hcb]; rfl
      rw [heq]
      exact ⟨hc, le_refl _, fun j hj1 hj2 => absurd (lt_of_le_of_lt hj1 hj2) (lt_irrefl _)⟩

/-- Pigeonhole: among `1 .. table.length + 1` some id is unused. -/
lemma exists_unused_id (table : List Nat) :
    ∃ k, 1 ≤ k ∧ k < 1 + (table.length + 1) ∧ k ∉ table := by
  by_contra hcon
  push_neg at hcon
  have hsub : Finset.Icc 1 (table.length + 1) ⊆ table.toFinset := by
    intro x hx
    simp only [Finset.mem_Icc] at hx
    exact List.mem_toFinset.2 (hcon x hx.1 (by omega))
  have hcard := Finset.card_le_card hsub
  rw [Nat.card_Icc] at hcard
  have hlen := table.toFinset_card_le
  omega

/-- `allocate_id` returns the least unused positive id, appends it to the id
list and leaves the children untouched. -/
lemma allocate_id_spec (t : DomainTableM) :
    (t.allocate_id).1 ∉ t.table ∧ 1 ≤ (t.allocate_id).1 ∧
    (∀ j, 1 ≤ j → j < (t.allocate_id).1 → j ∈ t.table) ∧
    (t.allocate_id).2.table = t.table ++ [(t.allocate_id).1] ∧
    (t.allocate_id).2.domains = t.domains := by
  have h := firstFreeId_spec t.table (t.table.length + 1) 1 (exists_unused_id t.table)
  exact ⟨h.1, h.2.1, h.2.2, rfl, rfl⟩

/-- C2: for every `DomainTable`, `allocate_id` returns the smallest positive
integer not in the id set and inserts it; `allocate_specific_id(id)` inserts
and returns `id` when absent and fails with `ObjectIdAlreadyAllocated` when
present; and the concrete S3 scenario — `allocate_id → 1`, `allocate_id → 2`,
`allocate_specific_id 5 → 5`, `allocate_specific_id 2 →
ObjectIdAlreadyAllocated`, `deallocate_domain 1`, `allocate_id → 1` — runs as
listed from an empty table. -/
theorem domain_table_allocation_spec :
    (∀ t : DomainTableM,
      (t.allocate_id).1 ∉ t.table ∧ 1 ≤ (t.allocate_id).1 ∧
      (∀ j, 1 ≤ j → j < (t.allocate_id).1 → j ∈ t.table) ∧
      (t.allocate_id).2.table = t.table ++ [(t.allocate_id).1] ∧
      (t.allocate_id).2.domains = t.domains)
    ∧ (∀ (t : DomainTableM) (id : Nat),
        (id ∉ t.table →
          t.allocate_specific_id id = .ok (id, { t with table := t.table ++ [id] }))
        ∧ (id ∈ t.table →
          t.allocate_specific_id id = .error RC.objectIdAlreadyAllocated))
    ∧ ((DomainTableM.new.allocate_id).1 = 1
       ∧ ((DomainTableM.new.allocate_id).2.allocate_id).1 = 2
       ∧ (((DomainTableM.new.allocate_id).2.allocate_id).2.allocate_specific_id 5
           = .ok (5, ⟨[1, 2, 5], []⟩))
       ∧ ((⟨[1, 2, 5], []⟩ : DomainTableM).allocate_specific_id 2
           = .error RC.objectIdAlreadyAllocated)
       ∧ ((⟨[1, 2, 5], []⟩ : DomainTableM).deallocate_domain 1 = ⟨[2, 5], []⟩)
       ∧ (((⟨[2, 5], []⟩ : DomainTableM).allocate_id).1 = 1)) := by
  refine ⟨allocate_id_spec, ?_, by decide⟩
  intro t id
  constructor
  · intro hid
    have hcb : t.table.contains id = false := by
      rw [list_contains_eq]; exact decide_eq_false hid
    simp only [DomainTableM.allocate_specific_id, hcb, Bool.false_eq_true,
      if_false]
  · intro hid
    have hcb : t.table.contains id = true := by
      rw [list_contains_eq]; exact decide_eq_true hid
    simp only [DomainTableM.allocate_specific_id, hcb, if_true]

/-- Witness for C2 at a concrete table: `allocate_specific_id 5` on
`{1, 2}`. -/
theorem domain_table_allocation_spec_witness :
    (5 ∉ ([1, 2] : List Nat)) ∧
    DomainTableM.allocate_specific_id ⟨[1, 2], []⟩ 5 = .ok (5, ⟨[1, 2, 5], []⟩) :=
  ⟨by decide,
   (domain_table_allocation_spec.2.1 ⟨[1, 2], []⟩ 5).1 (by decide)⟩

/-- C7: along every operation sequence on a `Shared` allocation, the counter
reads exactly the number of live cells; while cells are live nothing has been
freed, and when the last cell is dropped exactly one free of both the object
and the counter has happened. -/
theorem shared_use_count_invariant (n : Nat) (h : Option Int) (f : Nat)
    (hr : SharedReach n h f) :
    referenceCountUseCount h = n ∧
    (0 < n → h = some (n : Int) ∧ f = 0) ∧
    (n = 0 → h = none ∧ f = 1) := by
  induction hr with
  | new =>
    refine ⟨rfl, fun _ => ⟨rfl, rfl⟩, fun h0 => absurd h0 one_ne_zero⟩
  | clone n h f hr ih =>
    have hs := (ih.2.1 (Nat.succ_pos n)).1
    have hf := (ih.2.1 (Nat.succ_pos n)).2
    subst hs
    refine ⟨?_, fun _ => ⟨?_, hf⟩, fun h0 => absurd h0 (Nat.succ_ne_zero _)⟩
    · simp [referenceCountAcquire, referenceCountUseCount]
      ring
    · simp [referenceCountAcquire]
      ring
  | drop n h f hr ih =>
    have hs := (ih.2.1 (Nat.succ_pos n)).1
    have hf := (ih.2.1 (Nat.succ_pos n)).2
    subst hs hf
    cases n with
    | zero =>
      have hrel : referenceCountRelease (some ((1 : Nat) : Int)) = (none, true) := by
        norm_num [referenceCountRelease]
      rw [hrel]
      exact ⟨rfl, fun h0 => absurd h0 (lt_irrefl 0), fun _ => ⟨rfl, rfl⟩⟩
    | succ m =>
      have hval : ((m + 2 : Nat) : Int) - 1 = ((m + 1 : Nat) : Int) := by
        push_cast; ring
      have hne : ((m + 1 : Nat) : Int) ≠ 0 := by push_cast; omega
      have hrel : referenceCountRelease (some ((m + 2 : Nat) : Int))
          = (some ((m + 1 : Nat) : Int), false) := by
        simp only [referenceCountRelease, hval]
        rw [if_neg hne]
      rw [hrel]
      refine ⟨by simp [referenceCountUseCount], fun _ => ⟨rfl, by simp⟩,
        fun h0 => absurd h0 (Nat.succ_ne_zero _)⟩

/-- Witness for C7: the state right after `Shared::new` is reachable and its
counter reads 1. -/
theorem shared_use_count_invariant_witness :
    SharedReach 1 (some 1) 0 ∧ referenceCountUseCount (some 1) = 1 := by
  have hr : SharedReach 1 (some 1) 0 := SharedReach.new
  exact ⟨hr, (shared_use_count_invariant 1 (some 1) 0 hr).1⟩

lemma convert_nv_error_code_unlisted (x : Int) (hx : x ∉ nvListedCodes) :
    convert_nv_error_code x = .error RC.ecInvalid := by
  have hmem : ∀ c : Int, c ∈ nvListedCodes → x ≠ c := fun c hc he => hx (he ▸ hc)
  unfold convert_nv_error_code
  rw [if_neg (hmem 0 (by decide)), if_neg (hmem (-1) (by decide)),
    if_neg (hmem (-2) (by decide)), if_neg (hmem (-11) (by decide)),
    if_neg (hmem (-12) (by decide)), if_neg (hmem (-17) (by decide)),
    if_neg (hmem (-19) (by decide)), if_neg (hmem (-22) (by decide)),
    if_neg (hmem (-32) (by decide)), if_neg (hmem (-38) (by decide)),
    if_neg (hmem (-61) (by decide)), if_neg (hmem (-74) (by decide)),
    if_neg (hmem (-75) (by decide)), if_neg (hmem (-110) (by decide)),
    if_neg (hmem (-2147483641) (by decide)), if_neg (hmem (-2147483646) (by decide)),
    if_neg (hmem (-2147483647) (by decide))]

/-- C9: `convert_nv_error_code` maps `Success` (0) to `Ok`, each listed named
code to its named result (`BadValue` = −22 to `ResultErrorCodeBadValue`), and
every raw value outside the listed codes — e.g. −1000 — to
`ResultErrorCodeInvalid`. -/
theorem convert_nv_error_code_spec :
    convert_nv_error_code 0 = .ok ()
    ∧ convert_nv_error_code (-1) = .error RC.ecPermissionDenied
    ∧ convert_nv_error_code (-2) = .error RC.ecNameNotFound
    ∧ convert_nv_error_code (-11) = .error RC.ecWouldBlock
    ∧ convert_nv_error_code (-12) = .error RC.ecNoMemory
    ∧ convert_nv_error_code (-17) = .error RC.ecAlreadyExists
    ∧ convert_nv_error_code (-19) = .error RC.ecNoInit
    ∧ convert_nv_error_code (-22) = .error RC.ecBadValue
    ∧ convert_nv_error_code (-32) = .error RC.ecDeadObject
    ∧ convert_nv_error_code (-38) = .error RC.ecInvalidOperation
    ∧ convert_nv_error_code (-61) = .error RC.ecNotEnoughData
    ∧ convert_nv_error_code (-74) = .error RC.ecUnknownTransaction
    ∧ convert_nv_error_code (-75) = .error RC.ecBadIndex
    ∧ convert_nv_error_code (-110) = .error RC.ecTimeOut
    ∧ convert_nv_error_code (-2147483641) = .error RC.ecFdsNotAllowed
    ∧ convert_nv_error_code (-2147483646) = .error RC.ecFailedTransaction
    ∧ convert_nv_error_code (-2147483647) = .error RC.ecBadType
    ∧ (∀ x : Int, x ∉ nvListedCodes → convert_nv_error_code x = .error RC.ecInvalid) := by
  exact ⟨rfl, rfl, rfl, rfl, rfl, rfl, rfl, rfl, rfl, rfl, rfl, rfl, rfl, rfl,
    rfl, rfl, rfl, convert_nv_error_code_unlisted⟩

/-- Witness for C9: the raw status −1000 is not a listed code and maps to
`ResultErrorCodeInvalid`. -/
theorem convert_nv_error_code_spec_witness :
    ((-1000 : Int) ∉ nvListedCodes) ∧
    convert_nv_error_code (-1000) = .error RC.ecInvalid :=
  ⟨by decide, convert_nv_error_code_spec.2.2.2.2.2.2.2.2.2.2.2.2.2.2.2.2.2
    (-1000) (by decide)⟩

/-- C10: a `ServerHolder` built by `new_session` or `new_domain_session`
captures no factory, so `make_new_session` fails with the `SessionClosed`
result; in general, whenever the plain (resp. MITM) factory is absent,
`make_new_session` (resp. `make_new_mitm_session`) fails with
`SessionClosed` — not with a dedicated no-factory error. -/
theorem make_new_session_without_factory_fails_session_closed
    (sh : ServerHolderM) (handle handle2 fwd doid : Nat)
    (object : List CommandMetadataM) :
    ((ServerHolderM.new_session handle object).make_new_session handle2
       = .error RC.sessionClosed)
    ∧ ((ServerHolderM.new_domain_session handle doid object).make_new_session handle2
       = .error RC.sessionClosed)
    ∧ (sh.new_server_fn = none →
        sh.make_new_session handle2 = .error RC.sessionClosed)
    ∧ (sh.new_mitm_server_fn = none →
        sh.make_new_mitm_session handle2 fwd = .error RC.sessionClosed)
    ∧ ((ServerHolderM.new_session handle object).make_new_mitm_session handle2 fwd
       = .error RC.sessionClosed) := by
  refine ⟨rfl, rfl, ?_, ?_, rfl⟩
  · intro hnone
    simp [ServerHolderM.make_new_session, ServerHolderM.get_new_server_fn, hnone]
  · intro hnone
    simp [ServerHolderM.make_new_mitm_session, ServerHolderM.get_new_mitm_server_fn,
      hnone]

/-- Witness for C10 at a concrete factory-less holder. -/
theorem make_new_session_without_factory_witness :
    (ServerHolderM.new_session 7 []).new_server_fn = none ∧
    (ServerHolderM.new_session 7 []).make_new_session 9 = .error RC.sessionClosed :=
  ⟨rfl,
   (make_new_session_without_factory_fails_session_closed
     (ServerHolderM.new_session 7 []) 7 9 0 0 []).2.2.1 rfl⟩

/-- A successful `convert_to_domain` produces a table holding exactly the new
base object's id, with no child holders. -/
lemma convert_to_domain_shape (h : ServerHolderM) (upstream : Except RC Nat)
    (h2 : ServerHolderM) (t : DomainTableM)
    (hc : h.convert_to_domain upstream = .ok (h2, t)) :
    t.table = [h2.info.domain_object_id] ∧ t.domains = [] := by
  unfold ServerHolderM.convert_to_domain at hc
  by_cases hd : h.info.isDomain
  · rw [if_pos hd] at hc; cases hc
  · rw [if_neg hd] at hc
    cases hmb : h.is_mitm_service with
    | true =>
      rw [hmb] at hc
      cases upstream with
      | error rc => simp at hc
      | ok fid =>
        simp [DomainTableM.allocate_specific_id, DomainTableM.new] at hc
        obtain ⟨hh2, ht⟩ := hc
        subst hh2 ht
        simp
    | false =>
      rw [hmb] at hc
      simp [DomainTableM.allocate_id, DomainTableM.new, firstFreeId] at hc
      obtain ⟨hh2, ht⟩ := hc
      subst hh2 ht
      simp [firstFreeId]

/-- C3 amended: for every reachable (base id, domain table) pair, the id set
equals the base id together with the `domain_object_id`s of the child
holders. -/
theorem domain_table_id_set_with_base_invariant (b : Nat) (t : DomainTableM)
    (hr : DomainTableReach b t) :
    ∀ x, x ∈ t.table ↔
      (x = b ∨ x ∈ t.domains.map (fun sh => sh.info.domain_object_id)) := by
  induction hr with
  | convert h upstream h2 t hc =>
    obtain ⟨htab, hdom⟩ := convert_to_domain_shape h upstream h2 t hc
    intro x
    rw [htab, hdom]
    simp
  | alloc_child b t object hr ih =>
    intro x
    have ha := allocate_id_spec t
    have htab : (pushDomainObject t object).2.table
        = t.table ++ [(t.allocate_id).1] := by
      simp only [pushDomainObject]
      exact ha.2.2.2.1
    have hdom : (pushDomainObject t object).2.domains
        = t.domains ++ [ServerHolderM.new_domain_session 0 (t.allocate_id).1 object] := by
      simp only [pushDomainObject]
      rw [ha.2.2.2.2]
    rw [htab, hdom]
    simp only [List.mem_append, List.mem_singleton, List.map_append,
      List.map_cons, List.map_nil]
    have hchild : (ServerHolderM.new_domain_session 0 (t.allocate_id).1
        object).info.domain_object_id = (t.allocate_id).1 := rfl
    rw [hchild]
    have := ih x
    tauto
  | close_dealloc b id t hne hr ih =>
    intro x
    simp only [DomainTableM.deallocate_domain, List.mem_filter, List.mem_map,
      bne_iff_ne, ne_eq, decide_not, Bool.not_eq_eq_eq_not, Bool.not_true,
      decide_eq_false_iff_not]
    constructor
    · rintro ⟨hx, hxid⟩
      rcases (ih x).1 hx with hb | hmap
      · exact Or.inl hb
      · obtain ⟨sh, hsh, hshx⟩ := List.mem_map.1 hmap
        exact Or.inr ⟨sh, ⟨hsh, fun hcon => hxid (hshx ▸ hcon ▸ rfl)⟩, hshx⟩
    · rintro (hb | ⟨sh, ⟨hsh, hshid⟩, hshx⟩)
      · subst hb
        exact ⟨(ih x).2 (Or.inl rfl), fun hcon => hne hcon.symm⟩
      · refine ⟨(ih x).2 (Or.inr (List.mem_map.2 ⟨sh, hsh, hshx⟩)), ?_⟩
        intro hcon
        exact hshid (hshx ▸ hcon)

/-- C3 as stated fails: right after `convert_to_domain` on a fresh session
holder, the reachable table holds the base id `1` while the children list is
empty, so the id set is not the children's id set. -/
theorem domain_table_id_set_counterexample :
    DomainTableReach 1 ⟨[1], []⟩ ∧
    ¬ (∀ (b : Nat) (t : DomainTableM), DomainTableReach b t →
        ∀ x, x ∈ t.table ↔
          x ∈ t.domains.map (fun sh => sh.info.domain_object_id)) := by
  have hreach : DomainTableReach 1 ⟨[1], []⟩ :=
    DomainTableReach.convert (ServerHolderM.new_session 42 []) (.ok 0)
      ⟨some [], ⟨42, 1, true⟩, none, none, .session, ObjectInfoM.new, false, 0⟩
      ⟨[1], []⟩ (by decide)
  refine ⟨hreach, fun hcl => ?_⟩
  have h1 := (hcl 1 ⟨[1], []⟩ hreach 1).1 (by decide)
  simp at h1

/-- Witness for the amended C3 at the concrete reachable table `{1}`. -/
theorem domain_table_id_set_with_base_witness :
    DomainTableReach 1 ⟨[1], []⟩ ∧
    (1 ∈ ([1] : List Nat) ↔
      (1 = 1 ∨ 1 ∈ (([] : List ServerHolderM)).map
        (fun sh => sh.info.domain_object_id))) := by
  have hreach : DomainTableReach 1 ⟨[1], []⟩ :=
    DomainTableReach.convert (ServerHolderM.new_session 42 []) (.ok 0)
      ⟨some [], ⟨42, 1, true⟩, none, none, .session, ObjectInfoM.new, false, 0⟩
      ⟨[1], []⟩ (by decide)
  exact ⟨hreach, domain_table_id_set_with_base_invariant 1 ⟨[1], []⟩ hreach 1⟩

lemma registerMany_length (n : Nat) (m : ServerManagerM) :
    (registerMany n m).server_holders.length = m.server_holders.length + n := by
  induction n generalizing m with
  | zero => rfl
  | succ k ih =>
    have hstep : registerMany (k + 1) m = registerMany k (m.register_server 1 0 []) := rfl
    rw [hstep, ih]
    simp [ServerManagerM.register_server]
    omega

/-- C4 as stated fails: 65 successive `register_server` calls — none of which
reports an error — leave the holders list at 65 entries, above
`MAX_OBJECT_COUNT`. -/
theorem holder_capacity_counterexample :
    (registerMany 65 ServerManagerM.newManager).server_holders.length = 65 ∧
    MAX_OBJECT_COUNT
      < (registerMany 65 ServerManagerM.newManager).server_holders.length := by
  have h := registerMany_length 65 ServerManagerM.newManager
  have hlen : (registerMany 65 ServerManagerM.newManager).server_holders.length = 65 := by
    rw [h]; rfl
  exact ⟨hlen, by rw [hlen]; decide⟩

lemma prepareWaitHandlesGo_overflow :
    ∀ (hs : List ServerHolderM) (idx : Nat) (acc : List Nat),
      idx ≤ MAX_OBJECT_COUNT →
      MAX_OBJECT_COUNT
        < idx + (hs.filter (fun sh => sh.info.handle != 0)).length →
      prepareWaitHandlesGo hs idx acc = none := by
  intro hs
  induction hs with
  | nil =>
    intro idx acc h1 h2
    simp only [List.filter_nil, List.length_nil] at h2
    omega
  | cons sh rest ih =>
    intro idx acc h1 h2
    have hstep : prepareWaitHandlesGo (sh :: rest) idx acc
        = if sh.info.handle != 0 then
            (if idx < MAX_OBJECT_COUNT then
               prepareWaitHandlesGo rest (idx + 1) (acc ++ [sh.info.handle])
             else none)
          else prepareWaitHandlesGo rest idx acc := rfl
    cases hz : (sh.info.handle != 0) with
    | true =>
      rw [hstep, hz, if_pos rfl]
      simp only [List.filter_cons, hz, if_true, List.length_cons] at h2
      by_cases hidx : idx < MAX_OBJECT_COUNT
      · rw [if_pos hidx]
        exact ih (idx + 1) (acc ++ [sh.info.handle]) (by omega) (by omega)
      · rw [if_neg hidx]
    | false =>
      have hzf : (sh.info.handle != 0) = false := hz
      rw [hstep, hzf]
      simp only [Bool.false_eq_true, if_false]
      simp only [List.filter_cons, hzf, Bool.false_eq_true, if_false] at h2
      exact ih idx acc h1 h2

/-- C4 amended: `register_server` appends exactly one holder and has no error
channel, so the holders list can exceed `MAX_OBJECT_COUNT`; once more than
`MAX_OBJECT_COUNT` holders carry nonzero handles, the next
`prepare_wait_handles` performs an out-of-bounds store into the fixed wait
array (a crash), rather than reporting an error result. -/
theorem register_unchecked_and_prepare_overflow_faults
    (m : ServerManagerM) (handle service_name : Nat)
    (factory : List CommandMetadataM) :
    ((m.register_server handle service_name factory).server_holders.length
        = m.server_holders.length + 1)
    ∧ (MAX_OBJECT_COUNT
        < (m.server_holders.filter (fun sh => sh.info.handle != 0)).length →
        m.prepare_wait_handles = none) := by
  constructor
  · simp [ServerManagerM.register_server]
  · intro hover
    exact prepareWaitHandlesGo_overflow m.server_holders 0 []
      (Nat.zero_le _) (by omega)

/-- Witness for the amended C4: a manager with 65 registered nonzero-handle
holders makes `prepare_wait_handles` fault. -/
theorem register_unchecked_overflow_witness :
    (MAX_OBJECT_COUNT
      < ((registerMany 65 ServerManagerM.newManager).server_holders.filter
          (fun sh => sh.info.handle != 0)).length) ∧
    (registerMany 65 ServerManagerM.newManager).prepare_wait_handles = none := by
  have hover : MAX_OBJECT_COUNT
      < ((registerMany 65 ServerManagerM.newManager).server_holders.filter
          (fun sh => sh.info.handle != 0)).length := by decide
  exact ⟨hover,
    (register_unchecked_and_prepare_overflow_faults
      (registerMany 65 ServerManagerM.newManager) 0 0 []).2 hover⟩

lemma prepareWaitHandlesGo_mem :
    ∀ (hs : List ServerHolderM) (idx : Nat) (acc ws : List Nat),
      prepareWaitHandlesGo hs idx acc = some ws →
      ∀ z ∈ ws, z ∈ acc ∨ ∃ sh ∈ hs, sh.info.handle = z := by
  intro hs
  induction hs with
  | nil =>
    intro idx acc ws h z hz
    simp only [prepareWaitHandlesGo, Option.some.injEq] at h
    exact Or.inl (h ▸ hz)
  | cons sh rest ih =>
    intro idx acc ws h z hz
    have hstep : prepareWaitHandlesGo (sh :: rest) idx acc
        = if sh.info.handle != 0 then
            (if idx < MAX_OBJECT_COUNT then
               prepareWaitHandlesGo rest (idx + 1) (acc ++ [sh.info.handle])
             else none)
          else prepareWaitHandlesGo rest idx acc := rfl
    rw [hstep] at h
    cases hz2 : (sh.info.handle != 0) with
    | true =>
      rw [hz2, if_pos rfl] at h
      by_cases hidx : idx < MAX_OBJECT_COUNT
      · rw [if_pos hidx] at h
        rcases ih (idx + 1) (acc ++ [sh.info.handle]) ws h z hz with hacc | ⟨s, hs1, hs2⟩
        · rcases List.mem_append.1 hacc with h1 | h2
          · exact Or.inl h1
          · exact Or.inr ⟨sh, List.mem_cons_self _ _, (List.mem_singleton.1 h2).symm⟩
        · exact Or.inr ⟨s, List.mem_cons_of_mem _ hs1, hs2⟩
      · rw [if_neg hidx] at h
        cases h
    | false =>
      have hzf : (sh.info.handle != 0) = false := hz2
      rw [hzf] at h
      simp only [Bool.false_eq_true, if_false] at h
      rcases ih idx acc ws h z hz with hacc | ⟨s, hs1, hs2⟩
      · exact Or.inl hacc
      · exact Or.inr ⟨s, List.mem_cons_of_mem _ hs1, hs2⟩

/-- C8: when the kernel reports `SessionClosed` on a session handle held by
exactly one holder, exactly that holder is removed — the count drops by one,
all other holders survive in order, and the closed handle is absent from any
wait set the next `prepare_wait_handles` builds. -/
theorem session_closed_removes_exactly_one
    (l1 l2 : List ServerHolderM) (x : ServerHolderM) (handle : Nat)
    (hx : x.info.handle = handle) (htype : x.handle_type = .session)
    (h1 : ∀ y ∈ l1, y.info.handle ≠ handle)
    (h2 : ∀ y ∈ l2, y.info.handle ≠ handle) :
    processSessionClosed (l1 ++ x :: l2) handle = l1 ++ l2
    ∧ (l1 ++ l2).length + 1 = (l1 ++ x :: l2).length
    ∧ (∀ ws, ServerManagerM.prepare_wait_handles ⟨l1 ++ l2⟩ = some ws →
        handle ∉ ws) := by
  refine ⟨?_, by simp only [List.length_append, List.length_cons]; omega, ?_⟩
  · induction l1 with
    | nil =>
      simp only [List.nil_append]
      have hstep : processSessionClosed (x :: l2) handle
          = if x.info.handle == handle then
              (if x.handle_type == WaitHandleTypeM.session then l2 else x :: l2)
            else x :: processSessionClosed l2 handle := rfl
      rw [hstep, hx, htype]
      simp
    | cons y l1r ih =>
      have hstep : processSessionClosed ((y :: l1r) ++ x :: l2) handle
          = if y.info.handle == handle then
              (if y.handle_type == WaitHandleTypeM.session
               then l1r ++ x :: l2 else (y :: l1r) ++ x :: l2)
            else y :: processSessionClosed (l1r ++ x :: l2) handle := rfl
      rw [hstep]
      have hy : (y.info.handle == handle) = false := by
        simp [h1 y (List.mem_cons_self _ _)]
      rw [hy]
      simp only [Bool.false_eq_true, if_false, List.cons_append]
      exact congrArg (List.cons y) (ih (fun z hz => h1 z (List.mem_cons_of_mem _ hz)))
  · intro ws hws hmem
    rcases prepareWaitHandlesGo_mem (l1 ++ l2) 0 [] ws hws handle hmem with
      hacc | ⟨s, hs1, hs2⟩
    · exact absurd hacc (List.not_mem_nil _)
    · rcases List.mem_append.1 hs1 with hin | hin
      · exact h1 s hin hs2
      · exact h2 s hin hs2

/-- Witness for C8 at a concrete three-holder manager. -/
theorem session_closed_removes_witness :
    ((ServerHolderM.new_session 20 []).info.handle = 20) ∧
    processSessionClosed
      [ServerHolderM.new_server 10 0 [], ServerHolderM.new_session 20 [],
       ServerHolderM.new_session 30 []] 20
      = [ServerHolderM.new_server 10 0 [], ServerHolderM.new_session 30 []] := by
  refine ⟨rfl, ?_⟩
  have h := session_closed_removes_exactly_one
    [ServerHolderM.new_server 10 0 []] [ServerHolderM.new_session 30 []]
    (ServerHolderM.new_session 20 []) 20 rfl rfl (by decide) (by decide)
  exact h.1

lemma convert_nv_error_code_nonzero (st : Int) (h : st ≠ 0) :
    ∃ rc, convert_nv_error_code st = .error rc := by
  by_cases h1 : st ∈ nvListedCodes
  · fin_cases h1
    · exact absurd rfl h
    all_goals exact ⟨_, rfl⟩
  · exact ⟨RC.ecInvalid, convert_nv_error_code_unlisted st h1⟩

/-- C5 as stated fails: `set_preallocated_buffer` returns success on a
response parcel whose trailing status is the nonzero `BadValue` (−22), which
the status mapper would reject — the method never reads the status. -/
theorem set_preallocated_buffer_ignores_status :
    Binder.set_preallocated_buffer (.ok [PVal.word (-22)]) = .ok () ∧
    convert_nv_error_code (-22) = .error RC.ecBadValue :=
  ⟨rfl, rfl⟩

/-- C5 amended: `connect`, `disconnect`, `request_buffer`, `dequeue_buffer`
and `queue_buffer` read the trailing 32-bit status after their outputs and
fail (with the mapped result) whenever it is nonzero, but
`set_preallocated_buffer` never reads the response parcel and succeeds
regardless of its status. -/
theorem binder_methods_status_check
    (qbo slot status : Int) (objId : Nat) (resp : List PVal)
    (hnz : status ≠ 0) :
    (∃ rc, Binder.connect (.ok [PVal.word qbo, PVal.word status]) = .error rc)
    ∧ (∃ rc, Binder.disconnect (.ok [PVal.word status]) = .error rc)
    ∧ (∃ rc, Binder.request_buffer
        (.ok [PVal.word 1, PVal.obj objId, PVal.word status]) = .error rc)
    ∧ (∃ rc, Binder.request_buffer
        (.ok [PVal.word 0, PVal.word status]) = .error rc)
    ∧ (∃ rc, Binder.dequeue_buffer
        (.ok [PVal.word slot, PVal.word 1, PVal.obj objId, PVal.word status])
        = .error rc)
    ∧ (∃ rc, Binder.dequeue_buffer
        (.ok [PVal.word slot, PVal.word 0, PVal.word status]) = .error rc)
    ∧ (∃ rc, Binder.queue_buffer (.ok [PVal.word qbo, PVal.word status])
        = .error rc)
    ∧ Binder.set_preallocated_buffer (.ok resp) = .ok () := by
  obtain ⟨rc, hrc⟩ := convert_nv_error_code_nonzero status hnz
  refine ⟨⟨rc, ?_⟩, ⟨rc, ?_⟩, ⟨rc, ?_⟩, ⟨rc, ?_⟩, ⟨rc, ?_⟩, ⟨rc, ?_⟩, ⟨rc, ?_⟩, rfl⟩
  all_goals
    simp [Binder.connect, Binder.disconnect, Binder.request_buffer,
      Binder.dequeue_buffer, Binder.queue_buffer, parcelRead, parcelReadSized,
      transact_parcel_check_err, hrc]

/-- Witness for the amended C5 at the concrete nonzero status −22. -/
theorem binder_methods_status_check_witness :
    ((-22 : Int) ≠ 0) ∧
    (∃ rc, Binder.disconnect (.ok [PVal.word (-22)]) = .error rc) :=
  ⟨by decide, (binder_methods_status_check 0 0 (-22) 0 [] (by decide)).2.1⟩

/-- C6, evaluated at the failing input: a domain `Close` addressed to the
base (owning) domain object falls into the empty `TODO: Abort? Error?` arm
(src/ipc/server.rs:545-547) — the call returns success, writes nothing, and
surfaces no protocol error to the client; while `Close` on a non-base object
deallocates exactly that id and produces no reply payload, as the claim's
first half states. -/
theorem domain_close_on_base_object_is_silent :
    (handle_request_command []
        ⟨40, 1, true⟩
        (some ⟨[1, 2], [ServerHolderM.new_domain_session 0 2 []]⟩) 3
        DomainCommandTypeM.close [] (fun _ b => (.ok (), b)) (fun _ => .ok ())
        [] ⟨[9], []⟩
      = .ok (⟨[9], []⟩, some ⟨[1, 2], [ServerHolderM.new_domain_session 0 2 []]⟩))
    ∧ (handle_request_command []
        ⟨40, 2, false⟩
        (some ⟨[1, 2], [ServerHolderM.new_domain_session 0 2 []]⟩) 3
        DomainCommandTypeM.close [] (fun _ b => (.ok (), b)) (fun _ => .ok ())
        [] ⟨[9], []⟩
      = .ok (⟨[9], []⟩, some ⟨[1], []⟩)) := by
  exact ⟨by decide, by decide⟩

lemma runCommands_no_match (adapter : AdapterFn) (is_mitm : Bool) (fwd : Nat)
    (backup : List Nat) (sendRes : Nat → Except RC Unit)
    (sendReplyBuf : List Nat) (rqId : Nat) :
    ∀ (cmds : List CommandMetadataM) (st : DispatchSt),
      (∀ c ∈ cmds, c.matchesRq rqId = false) →
      runCommands adapter is_mitm fwd backup sendRes sendReplyBuf rqId cmds st
        = (false, st) := by
  intro cmds
  induction cmds with
  | nil => intro st _; rfl
  | cons c rest ih =>
    intro st h
    have hc := h c (List.mem_cons_self _ _)
    simp only [runCommands, hc, Bool.false_eq_true, if_false]
    exact ih st (fun d hd => h d (List.mem_cons_of_mem _ hd))

lemma sendToForwardHandle_events (fwd : Nat) (backup : List Nat)
    (sendRes : Nat → Except RC Unit) (sendReplyBuf : List Nat)
    (st : DispatchSt) :
    (sendToForwardHandle fwd backup sendRes sendReplyBuf st).events
      = st.events ++ forwardEvents fwd backup sendRes := by
  unfold sendToForwardHandle forwardEvents
  cases hs : sendRes fwd with
  | ok u => simp
  | error rc => simp [writeRequestResponse]

lemma runCommands_single_forward (adapter : AdapterFn) (is_mitm : Bool)
    (fwd : Nat) (backup : List Nat) (sendRes : Nat → Except RC Unit)
    (sendReplyBuf : List Nat) (rqId : Nat) (c : CommandMetadataM)
    (post : List CommandMetadataM) :
    ∀ (pre : List CommandMetadataM) (st : DispatchSt),
      (∀ d ∈ pre, d.matchesRq rqId = false) →
      (∀ d ∈ post, d.matchesRq rqId = false) →
      c.matchesRq rqId = true →
      (adapter rqId st.msgBuf).1 = .error RC.shouldForwardToSession →
      is_mitm = true →
      runCommands adapter is_mitm fwd backup sendRes sendReplyBuf rqId
          (pre ++ c :: post) st
        = (true, sendToForwardHandle fwd backup sendRes sendReplyBuf
            { st with msgBuf := (adapter rqId st.msgBuf).2 }) := by
  intro pre
  induction pre with
  | nil =>
    intro st _ hpost hc hadapt hmitm
    simp only [List.nil_append, runCommands, hc, if_true]
    rw [hadapt, hmitm]
    simp only [beq_self_eq_true, Bool.and_self, if_true]
    rw [runCommands_no_match adapter true fwd backup sendRes sendReplyBuf rqId
      post _ hpost]
  | cons d rest ih =>
    intro st hpre hpost hc hadapt hmitm
    have hd := hpre d (List.mem_cons_self _ _)
    simp only [List.cons_append, runCommands, hd, Bool.false_eq_true, if_false]
    exact ih st (fun z hz => hpre z (List.mem_cons_of_mem _ hz)) hpost hc
      hadapt hmitm

lemma doHandleRequestRun_not_found (sh : ServerHolderM)
    (cmds : List CommandMetadataM) (rqId : Nat) (backup : List Nat)
    (adapter : AdapterFn) (sendRes : Nat → Except RC Unit)
    (sendReplyBuf : List Nat) (st : DispatchSt)
    (habsent : ∀ c ∈ cmds, c.matchesRq rqId = false) :
    doHandleRequestRun sh cmds rqId backup adapter sendRes sendReplyBuf st
      = if sh.is_mitm_service then
          .ok (sendToForwardHandle sh.mitm_forward_info.handle backup sendRes
            sendReplyBuf st)
        else .ok (writeRequestResponse RC.invalidCommandRequestId st) := by
  unfold doHandleRequestRun
  rw [runCommands_no_match adapter sh.is_mitm_service
    sh.mitm_forward_info.handle backup sendRes sendReplyBuf rqId cmds st habsent]
  rfl

lemma doHandleRequestRun_forwards (sh : ServerHolderM)
    (pre post : List CommandMetadataM) (c : CommandMetadataM) (rqId : Nat)
    (backup : List Nat) (adapter : AdapterFn)
    (sendRes : Nat → Except RC Unit) (sendReplyBuf : List Nat)
    (st : DispatchSt)
    (hpre : ∀ d ∈ pre, d.matchesRq rqId = false)
    (hpost : ∀ d ∈ post, d.matchesRq rqId = false)
    (hc : c.matchesRq rqId = true)
    (hadapt : (adapter rqId st.msgBuf).1 = .error RC.shouldForwardToSession)
    (hmitm : sh.is_mitm_service = true) :
    doHandleRequestRun sh (pre ++ c :: post) rqId backup adapter sendRes
        sendReplyBuf st
      = .ok (sendToForwardHandle sh.mitm_forward_info.handle backup sendRes
          sendReplyBuf { st with msgBuf := (adapter rqId st.msgBuf).2 }) := by
  unfold doHandleRequestRun
  rw [runCommands_single_forward adapter sh.is_mitm_service
    sh.mitm_forward_info.handle backup sendRes sendReplyBuf rqId c post pre st
    hpre hpost hc hadapt hmitm]
  rfl

lemma doHandleRequest_found (holders : List ServerHolderM) (info : ObjectInfoM)
    (domain_table : Option DomainTableM) (rqId : Nat) (backup : List Nat)
    (adapter : AdapterFn) (sendRes : Nat → Except RC Unit)
    (sendReplyBuf : List Nat) (st : DispatchSt) (sh : ServerHolderM)
    (cmds : List CommandMetadataM)
    (hfind : holders.find? (fun y => y.info.handle == info.handle) = some sh)
    (hres : resolveTarget sh info domain_table = .ok cmds) :
    doHandleRequest holders info domain_table rqId backup adapter sendRes
        sendReplyBuf st
      = doHandleRequestRun sh cmds rqId backup adapter sendRes sendReplyBuf st := by
  unfold doHandleRequest
  rw [hfind]
  show doHandleRequestCore sh info domain_table rqId backup adapter sendRes
    sendReplyBuf st = _
  unfold doHandleRequestCore
  rw [hres]

lemma handle_request_command_dispatch (holders : List ServerHolderM)
    (info : ObjectInfoM) (domain_table : Option DomainTableM) (rqId : Nat)
    (backup : List Nat) (adapter : AdapterFn)
    (sendRes : Nat → Except RC Unit) (sendReplyBuf : List Nat)
    (st st2 : DispatchSt) (dct : DomainCommandTypeM)
    (hdct : dct = DomainCommandTypeM.sendMessage
            ∨ (dct = DomainCommandTypeM.invalid ∧ info.isDomain = false))
    (hdo : doHandleRequest holders info domain_table rqId backup adapter
        sendRes sendReplyBuf st = .ok st2) :
    handle_request_command holders info domain_table rqId dct backup adapter
        sendRes sendReplyBuf st = .ok (st2, domain_table) := by
  rcases hdct with h | ⟨h, hd⟩
  · subst h
    unfold handle_request_command
    rw [hdo]
  · subst h
    unfold handle_request_command
    rw [hd]
    simp only [Bool.false_eq_true, if_false]
    rw [hdo]

/-- C1: for a request whose command id is absent from the target object's
metadata table (and likewise for an adapter failure matching
`ShouldForwardToSession`), a MITM holder restores the 256-byte snapshot taken
before any decoding and issues `send_sync_request` on its forward handle, so
the bytes visible to the upstream service are exactly the bytes the kernel
delivered; a non-MITM holder with an unknown command id instead writes an
`InvalidCommandRequestId` error response. -/
theorem mitm_fallback_preserves_wire_bytes
    (holders : List ServerHolderM) (info : ObjectInfoM)
    (domain_table : Option DomainTableM) (rqId : Nat) (adapter : AdapterFn)
    (sendRes : Nat → Except RC Unit) (sendReplyBuf delivered : List Nat)
    (st : DispatchSt) (sh : ServerHolderM) (cmds : List CommandMetadataM)
    (dct : DomainCommandTypeM)
    (hfind : holders.find? (fun y => y.info.handle == info.handle) = some sh)
    (hres : resolveTarget sh info domain_table = .ok cmds)
    (hlen : delivered.length = 256)
    (hdct : dct = DomainCommandTypeM.sendMessage
            ∨ (dct = DomainCommandTypeM.invalid ∧ info.isDomain = false)) :
    ((∀ c ∈ cmds, c.matchesRq rqId = false) → sh.is_mitm_service = true →
      ∃ st2, handle_request_command holders info domain_table rqId dct
          (snapshotMsgBuffer delivered) adapter sendRes sendReplyBuf st
          = .ok (st2, domain_table)
        ∧ st2.events = st.events
            ++ forwardEvents sh.mitm_forward_info.handle delivered sendRes)
    ∧ ((∀ c ∈ cmds, c.matchesRq rqId = false) → sh.is_mitm_service = false →
      handle_request_command holders info domain_table rqId dct
          (snapshotMsgBuffer delivered) adapter sendRes sendReplyBuf st
        = .ok (writeRequestResponse RC.invalidCommandRequestId st, domain_table)
      ∧ (writeRequestResponse RC.invalidCommandRequestId st).events
          = st.events ++ [Ev.wroteResponse RC.invalidCommandRequestId])
    ∧ (∀ pre c post, cmds = pre ++ c :: post →
        (∀ d ∈ pre, d.matchesRq rqId = false) →
        (∀ d ∈ post, d.matchesRq rqId = false) →
        c.matchesRq rqId = true →
        (adapter rqId st.msgBuf).1 = .error RC.shouldForwardToSession →
        sh.is_mitm_service = true →
        ∃ st2, handle_request_command holders info domain_table rqId dct
            (snapshotMsgBuffer delivered) adapter sendRes sendReplyBuf st
            = .ok (st2, domain_table)
          ∧ st2.events = st.events
              ++ forwardEvents sh.mitm_forward_info.handle delivered sendRes) := by
  have hsnap : snapshotMsgBuffer delivered = delivered :=
    List.take_of_length_le (le_of_eq hlen)
  refine ⟨?_, ?_, ?_⟩
  · intro habsent hmitm
    have hrun := doHandleRequestRun_not_found sh cmds rqId
      (snapshotMsgBuffer delivered) adapter sendRes sendReplyBuf st habsent
    rw [hmitm, if_pos rfl] at hrun
    have hdo := (doHandleRequest_found holders info domain_table rqId
      (snapshotMsgBuffer delivered) adapter sendRes sendReplyBuf st sh cmds
      hfind hres).trans hrun
    refine ⟨_, handle_request_command_dispatch holders info domain_table rqId
      (snapshotMsgBuffer delivered) adapter sendRes sendReplyBuf st _ dct hdct
      hdo, ?_⟩
    rw [sendToForwardHandle_events, hsnap]
  · intro habsent hmitm
    have hrun := doHandleRequestRun_not_found sh cmds rqId
      (snapshotMsgBuffer delivered) adapter sendRes sendReplyBuf st habsent
    rw [hmitm] at hrun
    simp only [Bool.false_eq_true, if_false] at hrun
    have hdo := (doHandleRequest_found holders info domain_table rqId
      (snapshotMsgBuffer delivered) adapter sendRes sendReplyBuf st sh cmds
      hfind hres).trans hrun
    exact ⟨handle_request_command_dispatch holders info domain_table rqId
      (snapshotMsgBuffer delivered) adapter sendRes sendReplyBuf st _ dct hdct
      hdo, rfl⟩
  · intro pre c post hsplit hpre hpost hc hadapt hmitm
    subst hsplit
    have hrun := doHandleRequestRun_forwards sh pre post c rqId
      (snapshotMsgBuffer delivered) adapter sendRes sendReplyBuf st hpre hpost
      hc hadapt hmitm
    have hdo := (doHandleRequest_found holders info domain_table rqId
      (snapshotMsgBuffer delivered) adapter sendRes sendReplyBuf st sh _
      hfind hres).trans hrun
    refine ⟨_, handle_request_command_dispatch holders info domain_table rqId
      (snapshotMsgBuffer delivered) adapter sendRes sendReplyBuf st _ dct hdct
      hdo, ?_⟩
    rw [sendToForwardHandle_events, hsnap]

/-- Witness for C1: a concrete MITM holder (forward handle 77), a request id
absent from its table, and a concrete 256-byte delivered buffer. -/
theorem mitm_fallback_preserves_wire_bytes_witness :
    (∀ c ∈ ([⟨9, true⟩] : List CommandMetadataM), c.matchesRq 3 = false) ∧
    ∃ st2,
      handle_request_command
          [⟨some [⟨9, true⟩], ⟨5, 0, true⟩, none, none, .session,
            ⟨77, 0, false⟩, true, 0⟩]
          ⟨5, 0, true⟩ none 3 DomainCommandTypeM.sendMessage
          (snapshotMsgBuffer (List.replicate 256 7)) (fun _ b => (.ok (), b))
          (fun _ => .ok ()) [1, 2] ⟨[], []⟩
        = .ok (st2, none)
      ∧ st2.events
          = [] ++ forwardEvents 77 (List.replicate 256 7) (fun _ => .ok ()) := by
  have h := mitm_fallback_preserves_wire_bytes
    [⟨some [⟨9, true⟩], ⟨5, 0, true⟩, none, none, .session,
      ⟨77, 0, false⟩, true, 0⟩]
    ⟨5, 0, true⟩ none 3 (fun _ b => (.ok (), b)) (fun _ => .ok ()) [1, 2]
    (List.replicate 256 7) ⟨[], []⟩
    ⟨some [⟨9, true⟩], ⟨5, 0, true⟩, none, none, .session,
      ⟨77, 0, false⟩, true, 0⟩
    [⟨9, true⟩] DomainCommandTypeM.sendMessage (by decide) (by decide)
    (by rw [List.length_replicate]) (Or.inl rfl)
  exact ⟨by decide, h.1 (by decide) rfl⟩

end Nx
